import Mathlib

/-!
Shallow embedding of the waybar-module-pomodoro timer engine
(src/services/timer.rs, src/services/module.rs, src/services/cache.rs,
src/models/message.rs, src/models/config.rs).

Machine integers are modelled as `Nat`/`Int` with explicit reduction
modulo `2^16` (u16) or `2^8` (u8) at the arithmetic operations where the
Rust code can overflow in release builds.  `current_index : usize` is
modelled as `Fin 3`: the source keeps it in {0,1,2} by construction and
every use indexes the 3-slot `times` array (an out-of-range index would
panic unconditionally).
-/

namespace Pomodoro

/-- Modelled from the spec: the crate's `utils::consts` module is not in the
provided sources.  `MAX_ITERATIONS` is the number of work/short-break
round-trips before a long break ("iterations, range [0, MAX_ITERATIONS]").
Every theorem below is insensitive to its exact value; the conventional
pomodoro value 4 is used. -/
def MAX_ITERATIONS : Nat := 4

/-- Modelled from the spec: `utils::consts::SLEEP_TIME` (the tick period in
milliseconds) is not in the provided sources.  Its value 100 is forced by the
in-repo test `test_increment_elapsed_time` (src/services/timer.rs), which
asserts that `SLEEP_TIME` ticks advance `elapsed_time` by 10 seconds, i.e.
`SLEEP_TIME^2 = 10000`. -/
def SLEEP_TIME : Nat := 100

/-- u16 wrap-around, the release-mode semantics of u16 arithmetic. -/
def wrapU16 (n : Nat) : Nat := n % 65536

/-- u8 wrap-around, the release-mode semantics of u8 arithmetic. -/
def wrapU8 (n : Nat) : Nat := n % 256

/-- i16 wrap-around (two's complement), the release-mode semantics of
i16 arithmetic. -/
def wrapI16 (z : Int) : Int := (z + 32768) % 65536 - 32768

/-- Rust `as u16` on a non-negative i32 value: truncation modulo 2^16. -/
def i32AsU16 (z : Int) : Nat := wrapU16 z.toNat

/-- Rust `as i16` on a u16 value: reinterpretation of the low 16 bits. -/
def u16AsI16 (n : Nat) : Int := if n < 32768 then (n : Int) else (n : Int) - 65536

-- CSS class constants (src/services/timer.rs)
def CLASS_EMPTY : String := ""
def CLASS_PAUSE : String := "pause"
def CLASS_WORK : String := "work"
def CLASS_BREAK : String := "break"

/-- `CycleType` (src/services/timer.rs). -/
inductive CycleType
  | Work
  | ShortBreak
  | LongBreak
deriving DecidableEq

/-- The array index each `CycleType` maps to, as matched in `set_time`
and `add_delta_time`. -/
def CycleType.index : CycleType → Fin 3
  | .Work => 0
  | .ShortBreak => 1
  | .LongBreak => 2

/-- The slice of `Config` (src/models/config.rs) that the timer engine and
the persistence adapter read: the three configured durations in seconds and
the two auto-continue flags.  The remaining fields (icons, sounds, persist
flag, binary name) only feed rendering and I/O side effects and are never
read by the operations embedded here. -/
structure Config where
  work_time : Nat
  short_break : Nat
  long_break : Nat
  autow : Bool
  autob : Bool

/-- The three-slot `times` array. -/
def vec3 (a b c : Nat) : Fin 3 → Nat := fun i =>
  match i with
  | ⟨0, _⟩ => a
  | ⟨1, _⟩ => b
  | ⟨2, _⟩ => c

/-- `Timer` (src/services/timer.rs). -/
structure Timer where
  current_index : Fin 3
  elapsed_millis : Nat
  elapsed_time : Nat
  times : Fin 3 → Nat
  iterations : Nat
  session_completed : Nat
  running : Bool
  socket_nr : Int
  current_override : Option Nat

/-- `Timer::new`. -/
def Timer.new (work_time short_break long_break : Nat) (socker_nr : Int) : Timer :=
  { current_index := 0
    elapsed_millis := 0
    elapsed_time := 0
    times := vec3 work_time short_break long_break
    iterations := 0
    session_completed := 0
    running := false
    socket_nr := socker_nr
    current_override := none }

/-- `Timer::reset`. -/
def Timer.reset (t : Timer) : Timer :=
  { t with
    current_index := 0
    elapsed_time := 0
    elapsed_millis := 0
    iterations := 0
    running := false
    current_override := none }

/-- `Timer::is_break`. -/
def Timer.is_break (t : Timer) : Bool := t.current_index ≠ 0

/-- `Timer::set_time`.  `input * 60` is a u16 multiplication and wraps. -/
def Timer.set_time (t : Timer) (cycle : CycleType) (input : Nat) : Timer :=
  let t0 := t.reset
  { t0 with times := Function.update t0.times cycle.index (wrapU16 (input * 60)) }

/-- `Timer::add_delta_time`.  `delta * 60` is an i16 multiplication (wraps);
the sum is computed in i32 (no overflow there) and cast back with `as u16`. -/
def Timer.add_delta_time (t : Timer) (cycle : CycleType) (delta : Int) : Timer :=
  let index := cycle.index
  let delta_seconds : Int := wrapI16 (delta * 60)
  let current_time : Int := (t.times index : Int)
  let new_time : Nat := i32AsU16 (max (current_time + delta_seconds) 0)
  if new_time = 0 ∧ t.current_index = index then
    { t with elapsed_time := t.times index, elapsed_millis := 0 }
  else
    { t with times := Function.update t.times index new_time }

/-- `Timer::set_current_duration`.  `minutes * 60` is a u16 multiplication
and wraps. -/
def Timer.set_current_duration (t : Timer) (minutes : Nat) : Timer :=
  let new_duration := wrapU16 (minutes * 60)
  let t1 := { t with current_override := some new_duration }
  if t1.elapsed_time > new_duration then
    { t1 with elapsed_time := new_duration, elapsed_millis := 0 }
  else t1

/-- `Timer::get_current_time`. -/
def Timer.get_current_time (t : Timer) : Nat :=
  t.current_override.getD (t.times t.current_index)

/-- `Timer::add_current_delta_time`. -/
def Timer.add_current_delta_time (t : Timer) (delta : Int) : Timer :=
  let delta_seconds : Int := wrapI16 (delta * 60)
  let current_time : Int := (t.get_current_time : Int)
  let new_time : Nat := i32AsU16 (max (current_time + delta_seconds) 0)
  if new_time = 0 then
    { t with
      elapsed_time := t.get_current_time
      elapsed_millis := 0
      current_override := some 0 }
  else
    let t1 := { t with current_override := some new_time }
    if t.elapsed_time > new_time then
      { t1 with elapsed_time := new_time, elapsed_millis := 0 }
    else t1

/-- `Timer::get_class`.  The final `panic!` arm of the source if-chain is
modelled as `none`; every other arm returns `some` of its CSS class. -/
def Timer.get_class (t : Timer) : Option String :=
  if t.elapsed_millis = 0 ∧ t.elapsed_time = 0 ∧ t.iterations = 0 ∧
      t.session_completed = 0 then
    some CLASS_EMPTY
  else if !t.running then
    some CLASS_PAUSE
  else if !t.is_break then
    some CLASS_WORK
  else if t.is_break then
    some CLASS_BREAK
  else
    none

/-- `Timer::update_state`.  The source guard is the u16 subtraction test
`(get_current_time() - elapsed_time) == 0`; on u16 values wrapping
subtraction is zero exactly when the operands are equal, so the guard is
embedded as equality (the debug-build underflow of that subtraction is the
subject of a separate claim).  The notification side effect carries no
engine state and is dropped. -/
def Timer.update_state (t : Timer) (config : Config) : Timer :=
  if t.get_current_time = t.elapsed_time then
    let t1 := { t with current_override := none }
    let t2 :=
      if t1.current_index = 0 ∧ t1.iterations = MAX_ITERATIONS - 1 then
        { t1 with current_index := 2, iterations := MAX_ITERATIONS }
      else if t1.current_index = 2 ∧ t1.iterations = MAX_ITERATIONS then
        { t1 with
          current_index := 0
          iterations := 0
          session_completed := wrapU8 (t1.session_completed + 1) }
      else
        let ni : Fin 3 := ⟨(t1.current_index.val + 1) % 2, by omega⟩
        { t1 with
          current_index := ni
          iterations := if ni.val = 0 then wrapU8 (t1.iterations + 1) else t1.iterations }
    let t3 := { t2 with elapsed_time := 0 }
    { t3 with running := (config.autob && t3.is_break) || (config.autow && !t3.is_break) }
  else t

/-- `Timer::increment_time`.  `elapsed_millis += SLEEP_TIME` and
`elapsed_time += 1` are u16 additions and wrap. -/
def Timer.increment_time (t : Timer) : Timer :=
  let m := wrapU16 (t.elapsed_millis + SLEEP_TIME)
  if m ≥ 1000 then
    { t with elapsed_millis := 0, elapsed_time := wrapU16 (t.elapsed_time + 1) }
  else
    { t with elapsed_millis := m }

/-- `Timer::next_state`. -/
def Timer.next_state (t : Timer) (config : Config) : Timer :=
  let t1 := { t with elapsed_time := t.get_current_time, elapsed_millis := 0 }
  t1.update_state config

/-! ## Message protocol (src/models/message.rs) -/

/-- `TimeValue` (src/models/message.rs).  `Set` carries a u16, `Add` and
`Subtract` carry an i16; the ranges are side conditions on theorems. -/
inductive TimeValue
  | Set (v : Nat)
  | Add (v : Int)
  | Subtract (v : Int)
deriving DecidableEq

/-- Greedy scan of the `\d+` capture group: the longest digit prefix and
the rest. -/
def spanDigits : List Char → List Char × List Char
  | [] => ([], [])
  | c :: cs =>
    if c.isDigit then
      let p := spanDigits cs
      (c :: p.1, p.2)
    else ([], c :: cs)

/-- Result of matching `TIME_VALUE_REGEX`, `^([+-])?(\d+)([+-])?$`:
capture groups 1 (sign prefix), 2 (digits) and 3 (sign suffix);
`none` when the input does not match. -/
def regexTimeValue (cs : List Char) : Option (Option Char × List Char × Option Char) :=
  let pr : Option Char × List Char :=
    match cs with
    | [] => (none, [])
    | c :: cs' => if c = '+' ∨ c = '-' then (some c, cs') else (none, cs)
  let sp := spanDigits pr.2
  if sp.1.isEmpty then none
  else
    match sp.2 with
    | [] => some (pr.1, sp.1, none)
    | [c] => if c = '+' ∨ c = '-' then some (pr.1, sp.1, some c) else none
    | _ => none

/-- Numeric value of a digit string (what `str::parse` computes before its
range check). -/
def digitsVal (cs : List Char) : Nat :=
  cs.foldl (fun a c => a * 10 + (c.toNat - 48)) 0

/-- `TimeValue::from_str` (the `FromStr` impl in src/models/message.rs).
`number_str.parse::<u16>()` fails when the digit string denotes a value
above 65535; `number as i16` reinterprets the low bits. -/
def TimeValue.from_str (s : String) : Except String TimeValue :=
  match regexTimeValue s.data with
  | none => .error ("Invalid time value format: " ++ s)
  | some (pre, digits, suf) =>
    if 65535 < digitsVal digits then
      .error ("Invalid number: " ++ String.mk digits)
    else if pre.isSome ∧ suf.isSome then
      .error ("Invalid time value format " ++ s)
    else
      match pre.or suf with
      | some c =>
        if c = '+' then .ok (.Add (u16AsI16 (digitsVal digits)))
        else if c = '-' then .ok (.Subtract (u16AsI16 (digitsVal digits)))
        else .error ("Invalid time value format: " ++ s)
      | none => .ok (.Set (digitsVal digits))

/-- `Message` (src/models/message.rs). -/
inductive Message
  | Start
  | Stop
  | Toggle
  | Reset
  | NextState
  | SetWork (time : TimeValue)
  | SetShort (time : TimeValue)
  | SetLong (time : TimeValue)
  | SetCurrent (time : TimeValue)
deriving DecidableEq

/-- Decimal digit character. -/
def digitChar (d : Nat) : Char := Char.ofNat (48 + d)

/-- Decimal digits of a natural number, most significant first
(Rust's `Display` for unsigned integers). -/
def natDigits (n : Nat) : List Char :=
  if _h : n < 10 then [digitChar n]
  else natDigits (n / 10) ++ [digitChar (n % 10)]
decreasing_by exact Nat.div_lt_self (by omega) (by omega)

/-- Rust `format!` of an i16 value (`Display` for signed integers). -/
def intDigits (z : Int) : List Char :=
  if z < 0 then '-' :: natDigits (-z).toNat else natDigits z.toNat

/-- The string the `Serialize` impl for `TimeValue` produces. -/
def TimeValue.encodeStr : TimeValue → String
  | .Set v => String.mk (natDigits v)
  | .Add v => String.mk ('+' :: intDigits v)
  | .Subtract v => String.mk ('-' :: intDigits v)

/-- `Message::encode`: `serde_json::to_string` of the externally tagged,
kebab-cased enum. -/
def Message.encode : Message → String
  | .Start => "\"start\""
  | .Stop => "\"stop\""
  | .Toggle => "\"toggle\""
  | .Reset => "\"reset\""
  | .NextState => "\"next-state\""
  | .SetWork tv => "\x7b\"set-work\":\x7b\"time\":\"" ++ tv.encodeStr ++ "\"\x7d\x7d"
  | .SetShort tv => "\x7b\"set-short\":\x7b\"time\":\"" ++ tv.encodeStr ++ "\"\x7d\x7d"
  | .SetLong tv => "\x7b\"set-long\":\x7b\"time\":\"" ++ tv.encodeStr ++ "\"\x7d\x7d"
  | .SetCurrent tv => "\x7b\"set-current\":\x7b\"time\":\"" ++ tv.encodeStr ++ "\"\x7d\x7d"

/-- Strip an exact literal prefix from a character list. -/
def dropLit : List Char → List Char → Option (List Char)
  | [], cs => some cs
  | _ :: _, [] => none
  | p :: ps, c :: cs => if c = p then dropLit ps cs else none

/-- Scan a JSON string body up to its closing quote (the protocol's frames
contain no escape sequences). -/
def takeStr : List Char → Option (List Char × List Char)
  | [] => none
  | c :: cs =>
    if c = '"' then some ([], cs)
    else (takeStr cs).map (fun p => (c :: p.1, p.2))

/-- The five serde unit variants, deserializable from a bare JSON string. -/
def keywordMessage (cs : List Char) : Option Message :=
  if cs = "start".data then some .Start
  else if cs = "stop".data then some .Stop
  else if cs = "toggle".data then some .Toggle
  else if cs = "reset".data then some .Reset
  else if cs = "next-state".data then some .NextState
  else none

/-- The four serde struct variants, deserializable from a single-key map. -/
def durationMessage (key : List Char) : Option (TimeValue → Message) :=
  if key = "set-work".data then some .SetWork
  else if key = "set-short".data then some .SetShort
  else if key = "set-long".data then some .SetLong
  else if key = "set-current".data then some .SetCurrent
  else none

/-- `serde_json::from_str::<Message>` on the protocol's canonical frame
grammar: either a JSON string holding a unit-variant keyword, or the
externally tagged map `{"<variant>":{"time":"<value>"}}` whose time string
is parsed by `TimeValue::from_str`.  Frames with interior whitespace or
escape sequences — which serde would also accept — never arise from
`Message::encode` and are rejected here. -/
def jsonParse : List Char → Except String Message
  | [] => .error "expected value"
  | c1 :: rest1 =>
    if c1 = '"' then
      match takeStr rest1 with
      | some (content, []) =>
        match keywordMessage content with
        | some m => .ok m
        | none => .error "unknown variant"
      | some (_, _ :: _) => .error "trailing characters"
      | none => .error "EOF while parsing a string"
    else if c1 = '{' then
      match rest1 with
      | c2 :: rest =>
        if c2 = '"' then
          match takeStr rest with
          | some (key, tail) =>
            match dropLit (":\x7b\"time\":\"").data tail with
            | some tail2 =>
              match takeStr tail2 with
              | some (tv, tail3) =>
                if tail3 = ("\x7d\x7d").data then
                  match durationMessage key with
                  | some mk => (TimeValue.from_str (String.mk tv)).map mk
                  | none => .error "unknown variant"
                else .error "trailing characters"
              | none => .error "EOF while parsing a string"
            | none => .error "key must be a string"
          | none => .error "EOF while parsing a string"
        else .error "key must be a string"
      | [] => .error "EOF while parsing an object"
    else .error "expected value"

/-- ASCII whitespace, as trimmed by Rust's `str::trim` from the protocol's
frames (the frames only ever carry spaces, tabs, carriage returns and
newlines). -/
def isWs (c : Char) : Bool := c = ' ' ∨ c = '\n' ∨ c = '\t' ∨ c = '\r'

/-- Rust's `str::trim`: drop leading and trailing whitespace. -/
def trimChars (cs : List Char) : List Char :=
  ((cs.dropWhile isWs).reverse.dropWhile isWs).reverse

/-- `Message::decode`: try the structured parse; on failure re-try with the
trimmed input wrapped in quotes (`format!("\"{}\"", input.trim())`),
surfacing the first error if both fail. -/
def Message.decode (input : String) : Except String Message :=
  match jsonParse input.data with
  | .ok msg => .ok msg
  | .error first_error =>
    match jsonParse ('"' :: (trimChars input.data ++ ['"'])) with
    | .ok msg => .ok msg
    | .error _ => .error first_error

/-! ## Daemon message dispatch (src/services/module.rs) -/

/-- `process_message` (src/services/module.rs): decode and dispatch;
a decode error is logged and the state left untouched.  The source's match
arms still use the pre-`TimeValue` field form `{ value, is_delta }`; they
are reconciled with the `TimeValue` messages that `Message::decode`
produces by the mapping the control CLI applies when building those
messages (src/control_cli.rs `time_value_to_message`): `Set v` is an
absolute set, `Add v` a delta of `v`, `Subtract v` a delta of `-v`. -/
def process_message (state : Timer) (message : String) (config : Config) : Timer :=
  match Message.decode message with
  | .error _ => state
  | .ok msg =>
    match msg with
    | .Start => { state with running := true }
    | .Stop => { state with running := false }
    | .Toggle => { state with running := !state.running }
    | .Reset => state.reset
    | .NextState => state.next_state config
    | .SetWork tv =>
      match tv with
      | .Set v => state.set_time .Work v
      | .Add v => state.add_delta_time .Work v
      | .Subtract v => state.add_delta_time .Work (-v)
    | .SetShort tv =>
      match tv with
      | .Set v => state.set_time .ShortBreak v
      | .Add v => state.add_delta_time .ShortBreak v
      | .Subtract v => state.add_delta_time .ShortBreak (-v)
    | .SetLong tv =>
      match tv with
      | .Set v => state.set_time .LongBreak v
      | .Add v => state.add_delta_time .LongBreak v
      | .Subtract v => state.add_delta_time .LongBreak (-v)
    | .SetCurrent tv =>
      match tv with
      | .Set v => state.set_current_duration v
      | .Add v => state.add_current_delta_time v
      | .Subtract v => state.add_current_delta_time (-v)

/-! ## Persistence adapter (src/services/cache.rs) -/

/-- The serialized form of a `Timer`: every field except
`current_override`, which carries `#[serde(skip)]`. -/
structure StoredTimer where
  current_index : Fin 3
  elapsed_millis : Nat
  elapsed_time : Nat
  times : Fin 3 → Nat
  iterations : Nat
  session_completed : Nat
  running : Bool
  socket_nr : Int

/-- `store_to_path`: serialization of the full `Timer` minus the
skipped `current_override`. -/
def store_to_path (state : Timer) : StoredTimer :=
  { current_index := state.current_index
    elapsed_millis := state.elapsed_millis
    elapsed_time := state.elapsed_time
    times := state.times
    iterations := state.iterations
    session_completed := state.session_completed
    running := state.running
    socket_nr := state.socket_nr }

/-- `match_timers` (src/services/cache.rs). -/
def match_timers (config : Config) (times : Fin 3 → Nat) : Bool :=
  if config.work_time ≠ times 0 ∨ config.short_break ≠ times 1 ∨
      config.long_break ≠ times 2 then
    false
  else
    true

/-- `restore_from_path` on a successfully read and deserialized cache file:
when the stored `times` triple matches the configured triple, the listed
progress fields are copied onto the in-memory timer; otherwise it is left
untouched. -/
def restore_from_path (state : Timer) (config : Config) (restored : StoredTimer) : Timer :=
  if match_timers config restored.times then
    { state with
      current_index := restored.current_index
      elapsed_millis := restored.elapsed_millis
      elapsed_time := restored.elapsed_time
      times := restored.times
      iterations := restored.iterations
      session_completed := restored.session_completed
      running := restored.running }
  else state

/-- One daemon tick acting on the timer, as the claims describe it:
advance elapsed time by one `SLEEP_TIME` step, then run the transition
check. -/
def tick (config : Config) (t : Timer) : Timer :=
  (t.increment_time).update_state config

/-- A concrete run of public operations from a freshly constructed timer
with a 120-second Work cycle: the single message-dispatched command
`set-current -2` (a −2 minute delta on the current cycle). -/
def underflowRunConfig : Config := ⟨120, 300, 900, false, false⟩

/-- The timer state the run above produces: `add_current_delta_time`'s
zero branch fast-forwards `elapsed_time` to the old effective duration
(120) and only then installs the override `Some(0)`. -/
def underflowRunTimer : Timer :=
  process_message (Timer.new 120 300 900 0)
    "\x7b\"set-current\":\x7b\"time\":\"-2\"\x7d\x7d" underflowRunConfig

/-- The effective duration of the current cycle
(`current_override.unwrap_or(times[current_index])`), the quantity the
spec's invariant bounds `elapsed_time` by.  It coincides with
`Timer.get_current_time`. -/
def effective_duration (t : Timer) : Nat := t.get_current_time

/-- The spec's data-model invariant `elapsed_time ≤ effective_duration`. -/
def ElapsedInv (t : Timer) : Prop := t.elapsed_time ≤ effective_duration t

instance : DecidablePred ElapsedInv := fun t =>
  inferInstanceAs (Decidable (t.elapsed_time ≤ effective_duration t))

/-- The valid carried values of a `TimeValue`: `Set` holds a u16 minute
count, `Add`/`Subtract` hold a non-negative i16 minute count (the values
`TimeValue::from_str` produces from well-formed inputs). -/
def ValidTimeValue : TimeValue → Prop
  | .Set v => v < 65536
  | .Add v => 0 ≤ v ∧ v < 32768
  | .Subtract v => 0 ≤ v ∧ v < 32768

/-- A `Message` whose payload, if any, carries a valid minute value. -/
def ValidMessage : Message → Prop
  | .Start | .Stop | .Toggle | .Reset | .NextState => True
  | .SetWork tv | .SetShort tv | .SetLong tv | .SetCurrent tv => ValidTimeValue tv

/-! ## Basic lemmas -/

@[simp]
theorem vec3_zero (a b c : Nat) : vec3 a b c 0 = a := rfl

@[simp]
theorem vec3_one (a b c : Nat) : vec3 a b c 1 = b := rfl

@[simp]
theorem vec3_two (a b c : Nat) : vec3 a b c 2 = c := rfl

theorem get_current_time_mk (ci em et tms it sc r nr ov) :
    Timer.get_current_time ⟨ci, em, et, tms, it, sc, r, nr, ov⟩ = ov.getD (tms ci) := rfl

/-! ## C6: rejected input leaves the timer untouched -/

/-- C6: for every Timer state and every input string that `Message::decode`
rejects, `process_message` leaves the Timer completely unchanged; the input
is dropped without error propagation. -/
theorem process_message_rejected_leaves_timer_unchanged
    (t : Timer) (s : String) (cfg : Config)
    (h : ∃ e, Message.decode s = .error e) :
    process_message t s cfg = t := by
  obtain ⟨e, he⟩ := h
  simp [process_message, he]

/-- Witness: the concrete input "invalid" is rejected and dropped. -/
theorem process_message_rejected_witness :
    process_message (Timer.new 1500 300 900 0) "invalid" ⟨1500, 300, 900, false, false⟩
      = Timer.new 1500 300 900 0 :=
  process_message_rejected_leaves_timer_unchanged _ _ _ ⟨"expected value", rfl⟩

/-! ## C7: get_class classification -/

/-- C7: `get_class` always returns one of the four classes
empty/pause/work/break (the panic branch is unreachable); it returns the
empty class exactly when `elapsed_millis`, `elapsed_time`, `iterations`
and `session_completed` are all zero, and otherwise pause when not
running, work when running on index 0, break when running on a break
index, in that priority order. -/
theorem get_class_exhaustive (t : Timer) :
    (t.get_class = some CLASS_EMPTY ∨ t.get_class = some CLASS_PAUSE ∨
      t.get_class = some CLASS_WORK ∨ t.get_class = some CLASS_BREAK) ∧
    (t.get_class = some CLASS_EMPTY ↔
      (t.elapsed_millis = 0 ∧ t.elapsed_time = 0 ∧ t.iterations = 0 ∧
        t.session_completed = 0)) ∧
    (¬(t.elapsed_millis = 0 ∧ t.elapsed_time = 0 ∧ t.iterations = 0 ∧
        t.session_completed = 0) →
      (t.running = false → t.get_class = some CLASS_PAUSE) ∧
      (t.running = true → t.current_index = 0 → t.get_class = some CLASS_WORK) ∧
      (t.running = true → t.current_index ≠ 0 → t.get_class = some CLASS_BREAK)) := by
  unfold Timer.get_class
  split_ifs with h1 h2 h3 h4 <;>
    simp_all [Timer.is_break, CLASS_EMPTY, CLASS_PAUSE, CLASS_WORK, CLASS_BREAK]

/-- Witness for the classification at a concrete non-fresh, paused state. -/
theorem get_class_witness :
    Timer.get_class ⟨1, 0, 42, vec3 1500 300 900, 1, 0, false, 0, none⟩
      = some CLASS_PAUSE :=
  ((get_class_exhaustive _).2.2 (by decide)).1 rfl

/-! ## C8: absolute duration commands are not range-validated -/

/-- C8 counterexample: decoding accepts the absolute minute value 1093
(`TimeValue::from_str "1093"` succeeds), but `set_time` stores
`1093 * 60 = 65580` through a wrapping u16 multiplication, leaving 44
seconds instead of 65580: no validation fits the value to the u16 seconds
range. -/
theorem set_time_validation_cex :
    TimeValue.from_str "1093" = .ok (.Set 1093) ∧
    ((Timer.new 1500 300 900 0).set_time .Work 1093).times CycleType.Work.index = 44 ∧
    ¬((Timer.new 1500 300 900 0).set_time .Work 1093).times CycleType.Work.index
        = 1093 * 60 := by
  refine ⟨rfl, by decide, by decide⟩

/-- C8 amended: no validation is performed; for every decoded absolute
minute value (any u16), `set_time` stores `value * 60` reduced modulo
2^16, which equals the exact `value * 60` precisely when
`value ≤ 1092`. -/
theorem set_time_stores_wrapped_seconds (t : Timer) (cycle : CycleType) (v : Nat)
    (hv : v ≤ 65535) :
    (t.set_time cycle v).times cycle.index = (v * 60) % 65536 ∧
    (v ≤ 1092 → (t.set_time cycle v).times cycle.index = v * 60) := by
  constructor
  · simp [Timer.set_time, wrapU16]
  · intro h
    simp [Timer.set_time, wrapU16]
    omega

/-- Witness: setting 25 minutes stores exactly 1500 seconds. -/
theorem set_time_stores_witness :
    ((Timer.new 1500 300 900 0).set_time .Work 25).times CycleType.Work.index
      = 25 * 60 :=
  (set_time_stores_wrapped_seconds (Timer.new 1500 300 900 0) .Work 25
    (by decide)).2 (by decide)

/-! ## C1/C10: the elapsed-time invariant and its violation -/

/-- C1: the state
`⟨index 0, elapsed 300, times [600,300,900], no override⟩` satisfies the
invariant `elapsed_time ≤ effective_duration`, yet `add_delta_time Work (-9)`
(shrinking the active Work duration to 60 seconds) produces a state that
violates it: the engine operation does not preserve the spec's invariant. -/
theorem add_delta_time_breaks_elapsed_invariant :
    ElapsedInv ⟨0, 0, 300, vec3 600 300 900, 0, 0, true, 0, none⟩ ∧
    ¬ ElapsedInv
        (Timer.add_delta_time ⟨0, 0, 300, vec3 600 300 900, 0, 0, true, 0, none⟩
          .Work (-9)) := by
  decide

/-! ## C2: add_delta_time behavior -/

/-- C2 counterexample: from
`⟨index 0, elapsed 300, times [600,300,900]⟩`, the delta −9 minutes drives
the active Work duration to `60 ≤ elapsed_time = 300`, yet `add_delta_time`
stores the shrunk duration and leaves `elapsed_time` at 300: no
fast-forward of `elapsed_time` to the new duration happens. -/
theorem add_delta_time_no_fastforward_cex :
    ((Timer.add_delta_time ⟨0, 0, 300, vec3 600 300 900, 0, 0, true, 0, none⟩
        .Work (-9)).times CycleType.Work.index = 60) ∧
    ((Timer.add_delta_time ⟨0, 0, 300, vec3 600 300 900, 0, 0, true, 0, none⟩
        .Work (-9)).elapsed_time = 300) ∧
    ¬((Timer.add_delta_time ⟨0, 0, 300, vec3 600 300 900, 0, 0, true, 0, none⟩
        .Work (-9)).elapsed_time = 60) := by
  decide

/-- C2 amended: `add_delta_time` clamps the adjusted duration at 0 (never
negative); when the clamped new duration is 0 *and* the adjusted cycle is
the currently active one, it leaves `times` unchanged and instead
fast-forwards `elapsed_time` to the *old* stored duration `times[cycle]`
(zeroing `elapsed_millis`), so that the next `update_state` call fires the
transition when no override is active; in every other case it stores the
clamped new duration and leaves the elapsed counters untouched. -/
theorem add_delta_time_spec (t : Timer) (cycle : CycleType) (delta : Int) :
    ((t.times cycle.index : Int) + wrapI16 (delta * 60) ≤ 0 →
      i32AsU16 (max ((t.times cycle.index : Int) + wrapI16 (delta * 60)) 0) = 0) ∧
    (∀ j, j ≠ cycle.index →
      (t.add_delta_time cycle delta).times j = t.times j) ∧
    (i32AsU16 (max ((t.times cycle.index : Int) + wrapI16 (delta * 60)) 0) = 0 ∧
        t.current_index = cycle.index →
      (t.add_delta_time cycle delta).times = t.times ∧
      (t.add_delta_time cycle delta).elapsed_time = t.times cycle.index ∧
      (t.add_delta_time cycle delta).elapsed_millis = 0) ∧
    (¬(i32AsU16 (max ((t.times cycle.index : Int) + wrapI16 (delta * 60)) 0) = 0 ∧
        t.current_index = cycle.index) →
      (t.add_delta_time cycle delta).times cycle.index
          = i32AsU16 (max ((t.times cycle.index : Int) + wrapI16 (delta * 60)) 0) ∧
      (t.add_delta_time cycle delta).elapsed_time = t.elapsed_time ∧
      (t.add_delta_time cycle delta).elapsed_millis = t.elapsed_millis) := by
  refine ⟨?_, ?_, ?_, ?_⟩
  · intro h
    simp only [i32AsU16, wrapU16]
    omega
  · intro j hj
    unfold Timer.add_delta_time
    dsimp only
    split_ifs with h <;> simp [Function.update_noteq hj]
  · intro h
    unfold Timer.add_delta_time
    dsimp only
    rw [if_pos h]
    simp
  · intro h
    unfold Timer.add_delta_time
    dsimp only
    rw [if_neg h]
    simp [Function.update_same]

/-- Witness: applying the amended description at the counterexample state
shows the stored duration shrinks to 60 while elapsed stays put. -/
theorem add_delta_time_spec_witness :
    (Timer.add_delta_time ⟨0, 0, 300, vec3 600 300 900, 0, 0, true, 0, none⟩
        .Work (-9)).times CycleType.Work.index
      = i32AsU16 (max ((vec3 600 300 900 CycleType.Work.index : Int) +
          wrapI16 ((-9) * 60)) 0) :=
  ((add_delta_time_spec ⟨0, 0, 300, vec3 600 300 900, 0, 0, true, 0, none⟩
      .Work (-9)).2.2.2 (by decide)).1

/-! ## C3: the update_state transition rule -/

/-- C3 counterexample: at the end of a long break with
`session_completed = 255`, the u8 increment wraps: `update_state` sets
`session_completed` to 0, not to `255 + 1`. -/
theorem update_state_session_wrap_cex :
    Timer.elapsed_time ⟨2, 0, 900, vec3 1500 300 900, 4, 255, true, 0, none⟩
      = effective_duration ⟨2, 0, 900, vec3 1500 300 900, 4, 255, true, 0, none⟩ ∧
    (Timer.update_state ⟨2, 0, 900, vec3 1500 300 900, 4, 255, true, 0, none⟩
      ⟨1500, 300, 900, false, false⟩).session_completed = 0 ∧
    ¬(Timer.update_state ⟨2, 0, 900, vec3 1500 300 900, 4, 255, true, 0, none⟩
      ⟨1500, 300, 900, false, false⟩).session_completed
        = Timer.session_completed ⟨2, 0, 900, vec3 1500 300 900, 4, 255, true, 0, none⟩
            + 1 := by
  decide

/-- C3 amended: when `elapsed_time` equals the effective duration,
`update_state` moves to the next cycle by the claimed rule, with the u8
counters incremented modulo 2^8 (so `session_completed` and `iterations`
wrap from 255 to 0): long-break entry from Work at
`iterations = MAX_ITERATIONS - 1`; Work re-entry from LongBreak at
`iterations = MAX_ITERATIONS` with `session_completed` incremented mod 256;
otherwise toggling `index := (index + 1) % 2` with `iterations`
incremented mod 256 exactly when the new index is 0.  In every case
`current_override` is cleared and `elapsed_time` reset to 0. -/
theorem update_state_transition_rule (t : Timer) (cfg : Config)
    (h : t.elapsed_time = effective_duration t) :
    (t.current_index = 0 ∧ t.iterations = MAX_ITERATIONS - 1 →
      (t.update_state cfg).current_index = 2 ∧
      (t.update_state cfg).iterations = MAX_ITERATIONS ∧
      (t.update_state cfg).session_completed = t.session_completed) ∧
    (t.current_index = 2 ∧ t.iterations = MAX_ITERATIONS →
      (t.update_state cfg).current_index = 0 ∧
      (t.update_state cfg).iterations = 0 ∧
      (t.update_state cfg).session_completed = wrapU8 (t.session_completed + 1)) ∧
    (¬(t.current_index = 0 ∧ t.iterations = MAX_ITERATIONS - 1) ∧
        ¬(t.current_index = 2 ∧ t.iterations = MAX_ITERATIONS) →
      (t.update_state cfg).current_index.val = (t.current_index.val + 1) % 2 ∧
      ((t.update_state cfg).iterations =
        if (t.current_index.val + 1) % 2 = 0 then wrapU8 (t.iterations + 1)
        else t.iterations) ∧
      (t.update_state cfg).session_completed = t.session_completed) ∧
    (t.update_state cfg).current_override = none ∧
    (t.update_state cfg).elapsed_time = 0 := by
  have hg : t.get_current_time = t.elapsed_time := h.symm
  unfold Timer.update_state
  dsimp only
  rw [if_pos hg]
  split_ifs with h1 h2 <;> simp_all

/-- Witness: from Work with `iterations = MAX_ITERATIONS - 1`, the
transition enters the long break. -/
theorem update_state_transition_witness :
    (Timer.update_state ⟨0, 0, 1500, vec3 1500 300 900, 3, 7, true, 0, none⟩
      ⟨1500, 300, 900, false, false⟩).current_index = 2 :=
  ((update_state_transition_rule ⟨0, 0, 1500, vec3 1500 300 900, 3, 7, true, 0, none⟩
      ⟨1500, 300, 900, false, false⟩ (by decide)).1 (by decide)).1

/-! ## C9: persistence restore -/

/-- C9 counterexample: with a matching configuration triple, restore copies
the progress fields but not `socket_nr`: a stored timer with
`socket_nr = 5` restored into a fresh timer with `socket_nr = 0` leaves
`socket_nr = 0`, so not every field except `current_override` is
reproduced. -/
theorem restore_socket_nr_cex :
    match_timers ⟨1500, 300, 900, false, false⟩
        (StoredTimer.times ⟨1, 950, 300, vec3 1500 300 900, 2, 8, true, 5⟩) = true ∧
    (restore_from_path (Timer.new 1500 300 900 0) ⟨1500, 300, 900, false, false⟩
        ⟨1, 950, 300, vec3 1500 300 900, 2, 8, true, 5⟩).socket_nr = 0 ∧
    ¬(restore_from_path (Timer.new 1500 300 900 0) ⟨1500, 300, 900, false, false⟩
        ⟨1, 950, 300, vec3 1500 300 900, 2, 8, true, 5⟩).socket_nr
      = StoredTimer.socket_nr ⟨1, 950, 300, vec3 1500 300 900, 2, 8, true, 5⟩ := by
  decide

/-- C9 amended: restoring with a Config whose work/short/long triple equals
the stored times triple reproduces every stored field except
`current_override` *and* `socket_nr` (both keep the fresh timer's values);
restoring with a different triple leaves the fresh timer fully
unchanged. -/
theorem restore_from_path_spec (fresh : Timer) (config : Config)
    (stored : StoredTimer) :
    (config.work_time = stored.times 0 ∧ config.short_break = stored.times 1 ∧
        config.long_break = stored.times 2 →
      (restore_from_path fresh config stored).current_index = stored.current_index ∧
      (restore_from_path fresh config stored).elapsed_millis = stored.elapsed_millis ∧
      (restore_from_path fresh config stored).elapsed_time = stored.elapsed_time ∧
      (restore_from_path fresh config stored).times = stored.times ∧
      (restore_from_path fresh config stored).iterations = stored.iterations ∧
      (restore_from_path fresh config stored).session_completed
          = stored.session_completed ∧
      (restore_from_path fresh config stored).running = stored.running ∧
      (restore_from_path fresh config stored).current_override
          = fresh.current_override ∧
      (restore_from_path fresh config stored).socket_nr = fresh.socket_nr) ∧
    (¬(config.work_time = stored.times 0 ∧ config.short_break = stored.times 1 ∧
        config.long_break = stored.times 2) →
      restore_from_path fresh config stored = fresh) := by
  constructor
  · intro htriple
    have hm : match_timers config stored.times = true := by
      simp [match_timers, htriple.1, htriple.2.1, htriple.2.2]
    simp [restore_from_path, hm]
  · intro htriple
    have hm : match_timers config stored.times = false := by
      simp only [match_timers]
      split_ifs with hcond
      · rfl
      · exfalso
        exact htriple ⟨not_ne_iff.mp fun hne => hcond (Or.inl hne),
          not_ne_iff.mp fun hne => hcond (Or.inr (Or.inl hne)),
          not_ne_iff.mp fun hne => hcond (Or.inr (Or.inr hne))⟩
    simp [restore_from_path, hm]

/-- Witness: a matching restore reproduces `running`; a mismatched restore
is the identity. -/
theorem restore_from_path_witness :
    (restore_from_path (Timer.new 1500 300 900 0) ⟨1500, 300, 900, false, false⟩
        ⟨1, 950, 300, vec3 1500 300 900, 2, 8, true, 5⟩).running = true ∧
    restore_from_path (Timer.new 1500 300 900 0) ⟨25, 300, 900, false, false⟩
        ⟨1, 950, 300, vec3 1500 300 900, 2, 8, true, 5⟩
      = Timer.new 1500 300 900 0 :=
  ⟨((restore_from_path_spec (Timer.new 1500 300 900 0) ⟨1500, 300, 900, false, false⟩
      ⟨1, 950, 300, vec3 1500 300 900, 2, 8, true, 5⟩).1 (by decide)).2.2.2.2.2.2.1,
   (restore_from_path_spec (Timer.new 1500 300 900 0) ⟨25, 300, 900, false, false⟩
      ⟨1, 950, 300, vec3 1500 300 900, 2, 8, true, 5⟩).2 (by decide)⟩

/-! ## C10: the u16 subtraction in update_state can underflow -/

/-- C10: a sequence of public, message-dispatched operations starting from
a freshly constructed Timer — the single command `set-current -2` on a
120-second Work cycle — reaches a state with `get_current_time() = 0 <
elapsed_time = 120`.  At the next `update_state` entry the u16 subtraction
`get_current_time() - elapsed_time` underflows: its panic (debug) / wrap
(release) branch is reachable, contradicting the claim that
`elapsed_time ≤ get_current_time()` holds whenever `update_state` is
entered. -/
theorem update_state_underflow_reachable :
    underflowRunTimer.get_current_time = 0 ∧
    underflowRunTimer.elapsed_time = 120 := by
  decide

/-! ## C4: encode/decode round trip -/

theorem digitChar_isDigit (d : Nat) (h : d < 10) : (digitChar d).isDigit = true := by
  interval_cases d <;> decide

theorem digitChar_toNat (d : Nat) (h : d < 10) : (digitChar d).toNat = 48 + d := by
  interval_cases d <;> decide

theorem natDigits_ne_nil (n : Nat) : natDigits n ≠ [] := by
  rw [natDigits]
  split_ifs <;> simp

theorem natDigits_all_digits (n : Nat) : ∀ c ∈ natDigits n, c.isDigit = true := by
  induction n using Nat.strong_induction_on with
  | _ n ih =>
    rw [natDigits]
    split_ifs with h
    · intro c hc
      simp only [List.mem_singleton] at hc
      subst hc
      exact digitChar_isDigit n h
    · intro c hc
      rw [List.mem_append] at hc
      rcases hc with hc | hc
      · exact ih (n / 10) (Nat.div_lt_self (by omega) (by omega)) c hc
      · simp only [List.mem_singleton] at hc
        subst hc
        exact digitChar_isDigit _ (Nat.mod_lt _ (by omega))

theorem foldl_digits_natDigits (n : Nat) :
    ∀ a : Nat,
      (natDigits n).foldl (fun a c => a * 10 + (c.toNat - 48)) a
        = a * 10 ^ (natDigits n).length + n := by
  induction n using Nat.strong_induction_on with
  | _ n ih =>
    intro a
    rw [natDigits]
    split_ifs with h
    · simp [digitChar_toNat n h]
    · rw [List.foldl_append, List.length_append,
        ih (n / 10) (Nat.div_lt_self (by omega) (by omega)) a]
      simp only [List.foldl_cons, List.foldl_nil, List.length_singleton]
      rw [digitChar_toNat (n % 10) (Nat.mod_lt _ (by omega))]
      calc (a * 10 ^ (natDigits (n / 10)).length + n / 10) * 10 + (48 + n % 10 - 48)
          = a * (10 ^ (natDigits (n / 10)).length * 10) + (n / 10 * 10 + n % 10) := by
            ring_nf
            omega
        _ = a * 10 ^ ((natDigits (n / 10)).length + 1) + n := by
            rw [pow_succ]
            congr 1
            omega

theorem digitsVal_natDigits (n : Nat) : digitsVal (natDigits n) = n := by
  have h := foldl_digits_natDigits n 0
  simpa [digitsVal] using h

theorem spanDigits_all (l : List Char) (h : ∀ c ∈ l, c.isDigit = true) :
    spanDigits l = (l, []) := by
  induction l with
  | nil => rfl
  | cons c cs ih =>
    rw [spanDigits]
    rw [if_pos (h c (by simp))]
    simp [ih fun c hc => h c (List.mem_cons_of_mem _ hc)]

/-- `TimeValue::from_str` on a bare all-digit string yields `Set`. -/
theorem from_str_digits (l : List Char) (hne : l ≠ [])
    (hd : ∀ c ∈ l, c.isDigit = true) (hv : digitsVal l ≤ 65535) :
    TimeValue.from_str (String.mk l) = .ok (.Set (digitsVal l)) := by
  obtain ⟨c, cs, rfl⟩ : ∃ c cs, l = c :: cs := by
    cases l with
    | nil => exact absurd rfl hne
    | cons c cs => exact ⟨c, cs, rfl⟩
  have hc : c.isDigit = true := hd c (by simp)
  have hc1 : ¬(c = '+' ∨ c = '-') := by
    rintro (rfl | rfl) <;> simp at hc
  unfold TimeValue.from_str regexTimeValue
  dsimp only
  rw [if_neg hc1, spanDigits_all _ hd]
  simp only [List.isEmpty_cons, Bool.false_eq_true, if_false, if_neg (by omega : ¬65535 < digitsVal (c :: cs))]
  simp

/-- `TimeValue::from_str` on a sign-prefixed all-digit string yields
`Add`/`Subtract` of the u16-to-i16 reinterpreted value. -/
theorem from_str_sign (sign : Char) (hs : sign = '+' ∨ sign = '-')
    (l : List Char) (hne : l ≠ [])
    (hd : ∀ c ∈ l, c.isDigit = true) (hv : digitsVal l ≤ 65535) :
    TimeValue.from_str (String.mk (sign :: l))
      = .ok (if sign = '+' then .Add (u16AsI16 (digitsVal l))
             else .Subtract (u16AsI16 (digitsVal l))) := by
  obtain ⟨c, cs, rfl⟩ : ∃ c cs, l = c :: cs := by
    cases l with
    | nil => exact absurd rfl hne
    | cons c cs => exact ⟨c, cs, rfl⟩
  unfold TimeValue.from_str regexTimeValue
  dsimp only
  rw [if_pos hs, spanDigits_all _ hd]
  simp only [List.isEmpty_cons, Bool.false_eq_true, if_false,
    if_neg (by omega : ¬65535 < digitsVal (c :: cs))]
  rcases hs with rfl | rfl <;> simp

theorem mem_natDigits_ne_quote (n : Nat) : '"' ∉ natDigits n := by
  intro h
  have := natDigits_all_digits n _ h
  simp at this

theorem takeStr_append (l r : List Char) (h : '"' ∉ l) :
    takeStr (l ++ '"' :: r) = some (l, r) := by
  induction l with
  | nil => rfl
  | cons c cs ih =>
    rw [List.cons_append, takeStr]
    rw [if_neg (by intro hc; exact h (hc ▸ List.mem_cons_self c cs))]
    rw [ih fun hc => h (List.mem_cons_of_mem _ hc)]
    rfl

theorem dropLit_append (p r : List Char) : dropLit p (p ++ r) = some r := by
  induction p with
  | nil => rfl
  | cons c cs ih =>
    rw [List.cons_append, dropLit, if_pos rfl, ih]

/-- `jsonParse` on a canonical duration frame dispatches the key and
parses the time value. -/
theorem jsonParse_frame (key : List Char) (mk : TimeValue → Message)
    (hk : durationMessage key = some mk) (hkq : '"' ∉ key) (tvs : List Char)
    (hq : '"' ∉ tvs) :
    jsonParse ('{' :: '"' :: (key ++ '"' ::
        ((":\x7b\"time\":\"").data ++ (tvs ++ '"' :: "\x7d\x7d".data))))
      = (TimeValue.from_str (String.mk tvs)).map mk := by
  rw [jsonParse]
  rw [if_neg (by decide : ¬('{' : Char) = '"'), if_pos (rfl : ('{' : Char) = '{')]
  dsimp only
  rw [if_pos (rfl : ('"' : Char) = '"')]
  rw [takeStr_append _ _ hkq]
  dsimp only
  rw [dropLit_append]
  dsimp only
  rw [takeStr_append _ _ hq]
  dsimp only
  rw [if_pos rfl, hk]

/-- The characters `TimeValue::encodeStr` emits for a valid value never
contain a quote. -/
theorem encodeStr_no_quote (tv : TimeValue) (h : ValidTimeValue tv) :
    '"' ∉ (TimeValue.encodeStr tv).data := by
  cases tv with
  | Set v => exact mem_natDigits_ne_quote v
  | Add v =>
    obtain ⟨h0, h1⟩ := h
    intro hc
    simp only [TimeValue.encodeStr] at hc
    rcases List.mem_cons.mp hc with hc | hc
    · exact absurd hc (by decide)
    · rw [intDigits, if_neg (by omega : ¬v < 0)] at hc
      exact mem_natDigits_ne_quote _ hc
  | Subtract v =>
    obtain ⟨h0, h1⟩ := h
    intro hc
    simp only [TimeValue.encodeStr] at hc
    rcases List.mem_cons.mp hc with hc | hc
    · exact absurd hc (by decide)
    · rw [intDigits, if_neg (by omega : ¬v < 0)] at hc
      exact mem_natDigits_ne_quote _ hc

/-- `TimeValue::from_str` inverts `encodeStr` on valid values. -/
theorem from_str_encodeStr (tv : TimeValue) (h : ValidTimeValue tv) :
    TimeValue.from_str (TimeValue.encodeStr tv) = .ok tv := by
  cases tv with
  | Set v =>
    have hv : v < 65536 := h
    have := from_str_digits (natDigits v) (natDigits_ne_nil v)
      (natDigits_all_digits v) (by rw [digitsVal_natDigits]; omega)
    rw [TimeValue.encodeStr, this, digitsVal_natDigits]
  | Add v =>
    obtain ⟨h0, h1⟩ := h
    have hnn : ¬v < 0 := by omega
    have hdv : digitsVal (natDigits v.toNat) = v.toNat := digitsVal_natDigits _
    have hle : digitsVal (natDigits v.toNat) ≤ 65535 := by omega
    have hfs := from_str_sign '+' (Or.inl rfl) (natDigits v.toNat)
      (natDigits_ne_nil _) (natDigits_all_digits _) hle
    rw [TimeValue.encodeStr, intDigits, if_neg hnn, hfs,
      if_pos (rfl : ('+' : Char) = '+'), hdv, u16AsI16, if_pos (by omega),
      Int.toNat_of_nonneg h0]
  | Subtract v =>
    obtain ⟨h0, h1⟩ := h
    have hnn : ¬v < 0 := by omega
    have hdv : digitsVal (natDigits v.toNat) = v.toNat := digitsVal_natDigits _
    have hle : digitsVal (natDigits v.toNat) ≤ 65535 := by omega
    have hfs := from_str_sign '-' (Or.inr rfl) (natDigits v.toNat)
      (natDigits_ne_nil _) (natDigits_all_digits _) hle
    rw [TimeValue.encodeStr, intDigits, if_neg hnn, hfs,
      if_neg (by decide : ¬('-' : Char) = '+'), hdv, u16AsI16, if_pos (by omega),
      Int.toNat_of_nonneg h0]

/-- C4: decoding the encoding of every message variant with a valid minute
value yields the message back: `Message::decode(m.encode()) == Ok(m)`. -/
theorem decode_encode_roundtrip (m : Message) (hm : ValidMessage m) :
    Message.decode m.encode = .ok m := by
  have frame : ∀ (key : List Char) (mk : TimeValue → Message) (tv : TimeValue),
      durationMessage key = some mk → '"' ∉ key → ValidTimeValue tv →
      Message.decode (String.mk ('{' :: '"' :: (key ++ '"' ::
          ((":\x7b\"time\":\"").data ++ ((TimeValue.encodeStr tv).data ++ '"' ::
            "\x7d\x7d".data))))) = .ok (mk tv) := by
    intro key mk tv hk hkq htv
    unfold Message.decode
    rw [show (String.mk ('{' :: '"' :: (key ++ '"' ::
        ((":\x7b\"time\":\"").data ++ ((TimeValue.encodeStr tv).data ++ '"' ::
          "\x7d\x7d".data))))).data = '{' :: '"' :: (key ++ '"' ::
        ((":\x7b\"time\":\"").data ++ ((TimeValue.encodeStr tv).data ++ '"' ::
          "\x7d\x7d".data))) from rfl]
    rw [jsonParse_frame key mk hk hkq _ (encodeStr_no_quote tv htv)]
    rw [show String.mk (TimeValue.encodeStr tv).data = TimeValue.encodeStr tv from rfl]
    rw [from_str_encodeStr tv htv]
    rfl
  cases m with
  | Start => rfl
  | Stop => rfl
  | Toggle => rfl
  | Reset => rfl
  | NextState => rfl
  | SetWork tv => exact frame "set-work".data _ tv rfl (by decide) hm
  | SetShort tv => exact frame "set-short".data _ tv rfl (by decide) hm
  | SetLong tv => exact frame "set-long".data _ tv rfl (by decide) hm
  | SetCurrent tv => exact frame "set-current".data _ tv rfl (by decide) hm

/-- Witness: the round trip at `SetWork (Set 25)`. -/
theorem decode_encode_witness :
    Message.decode (Message.encode (.SetWork (.Set 25))) = .ok (.SetWork (.Set 25)) :=
  decode_encode_roundtrip (.SetWork (.Set 25)) (by simp [ValidMessage, ValidTimeValue])

/-! ## C5: next_state twice equals ticking through Work and ShortBreak -/

/-- A sub-second tick neither rolls the second counter nor fires. -/
theorem tick_mid (cfg : Config) (ci : Fin 3) (em et : Nat) (tms : Fin 3 → Nat)
    (it sc : Nat) (r : Bool) (nr : Int) (ov : Option Nat)
    (h1 : em + SLEEP_TIME < 1000)
    (h2 : Option.getD ov (tms ci) ≠ et) :
    tick cfg ⟨ci, em, et, tms, it, sc, r, nr, ov⟩
      = ⟨ci, em + SLEEP_TIME, et, tms, it, sc, r, nr, ov⟩ := by
  unfold tick Timer.increment_time
  dsimp only
  rw [wrapU16, Nat.mod_eq_of_lt (by omega), if_neg (by omega)]
  unfold Timer.update_state
  simp only [get_current_time_mk]
  rw [if_neg h2]

/-- The tenth sub-tick of a second rolls the second counter and runs the
transition check. -/
theorem tick_sec (cfg : Config) (ci : Fin 3) (em et : Nat) (tms : Fin 3 → Nat)
    (it sc : Nat) (r : Bool) (nr : Int) (ov : Option Nat)
    (h1 : 1000 ≤ em + SLEEP_TIME) (h2 : em + SLEEP_TIME < 65536)
    (h3 : et + 1 < 65536) :
    tick cfg ⟨ci, em, et, tms, it, sc, r, nr, ov⟩
      = Timer.update_state ⟨ci, 0, et + 1, tms, it, sc, r, nr, ov⟩ cfg := by
  unfold tick Timer.increment_time
  dsimp only
  simp only [wrapU16]
  rw [Nat.mod_eq_of_lt (by omega : em + SLEEP_TIME < 65536)]
  rw [if_pos (by omega), Nat.mod_eq_of_lt h3]

/-- `update_state` is the identity when elapsed differs from the effective
duration. -/
theorem update_state_noFire (cfg : Config) (ci : Fin 3) (em et : Nat)
    (tms : Fin 3 → Nat) (it sc : Nat) (r : Bool) (nr : Int) (ov : Option Nat)
    (h : Option.getD ov (tms ci) ≠ et) :
    Timer.update_state ⟨ci, em, et, tms, it, sc, r, nr, ov⟩ cfg
      = ⟨ci, em, et, tms, it, sc, r, nr, ov⟩ := by
  unfold Timer.update_state
  simp only [get_current_time_mk]
  rw [if_neg h]

/-- Ten ticks from a second boundary advance exactly one second and then
run the transition check. -/
theorem tick_ten (cfg : Config) (ci : Fin 3) (et : Nat) (tms : Fin 3 → Nat)
    (it sc : Nat) (r : Bool) (nr : Int) (ov : Option Nat)
    (hne : Option.getD ov (tms ci) ≠ et) (h3 : et + 1 < 65536) :
    (tick cfg)^[10] ⟨ci, 0, et, tms, it, sc, r, nr, ov⟩
      = Timer.update_state ⟨ci, 0, et + 1, tms, it, sc, r, nr, ov⟩ cfg := by
  simp only [Function.iterate_succ_apply, Function.iterate_zero_apply]
  rw [tick_mid cfg ci 0 et tms it sc r nr ov (by norm_num [SLEEP_TIME]) hne]
  rw [tick_mid cfg ci _ et tms it sc r nr ov (by norm_num [SLEEP_TIME]) hne]
  rw [tick_mid cfg ci _ et tms it sc r nr ov (by norm_num [SLEEP_TIME]) hne]
  rw [tick_mid cfg ci _ et tms it sc r nr ov (by norm_num [SLEEP_TIME]) hne]
  rw [tick_mid cfg ci _ et tms it sc r nr ov (by norm_num [SLEEP_TIME]) hne]
  rw [tick_mid cfg ci _ et tms it sc r nr ov (by norm_num [SLEEP_TIME]) hne]
  rw [tick_mid cfg ci _ et tms it sc r nr ov (by norm_num [SLEEP_TIME]) hne]
  rw [tick_mid cfg ci _ et tms it sc r nr ov (by norm_num [SLEEP_TIME]) hne]
  rw [tick_mid cfg ci _ et tms it sc r nr ov (by norm_num [SLEEP_TIME]) hne]
  rw [tick_sec cfg ci _ et tms it sc r nr ov (by norm_num [SLEEP_TIME])
    (by norm_num [SLEEP_TIME]) h3]

/-- Whole seconds that stay strictly inside the current cycle accumulate
without firing. -/
theorem tick_seconds (cfg : Config) (ci : Fin 3) (tms : Fin 3 → Nat)
    (it sc : Nat) (r : Bool) (nr : Int) (ov : Option Nat) (k : Nat) :
    ∀ et : Nat, et + k < Option.getD ov (tms ci) →
      Option.getD ov (tms ci) < 65536 →
      (tick cfg)^[10 * k] ⟨ci, 0, et, tms, it, sc, r, nr, ov⟩
        = ⟨ci, 0, et + k, tms, it, sc, r, nr, ov⟩ := by
  induction k with
  | zero => intro et _ _; simp
  | succ k ih =>
    intro et hk hw
    have h10 : 10 * (k + 1) = 10 * k + 10 := by ring
    rw [h10, Function.iterate_add_apply]
    rw [tick_ten cfg ci et tms it sc r nr ov (by omega) (by omega)]
    rw [update_state_noFire cfg ci 0 (et + 1) tms it sc r nr ov (by omega)]
    rw [ih (et + 1) (by omega) hw]
    congr 1
    omega

/-- Ticking through one whole cycle of effective duration `d` from a fresh
second boundary ends in the fired transition. -/
theorem tick_through_cycle (cfg : Config) (ci : Fin 3) (tms : Fin 3 → Nat)
    (it sc : Nat) (r : Bool) (nr : Int) (ov : Option Nat) (d : Nat)
    (hd : Option.getD ov (tms ci) = d) (hpos : 0 < d) (hw : d < 65536) :
    (tick cfg)^[10 * d] ⟨ci, 0, 0, tms, it, sc, r, nr, ov⟩
      = Timer.update_state ⟨ci, 0, d, tms, it, sc, r, nr, ov⟩ cfg := by
  have h10 : 10 * d = 10 + 10 * (d - 1) := by omega
  rw [h10, Function.iterate_add_apply]
  rw [tick_seconds cfg ci tms it sc r nr ov (d - 1) 0 (by omega) (by omega)]
  rw [show (0 + (d - 1)) = d - 1 by omega]
  rw [tick_ten cfg ci (d - 1) tms it sc r nr ov (by omega) (by omega)]
  congr 2
  omega

/-- C5: from a fresh timer with non-zero Work and ShortBreak durations,
`next_state` applied twice produces exactly the state reached by ticking
(one `increment_time` plus one `update_state` per tick) through the whole
Work cycle and the whole ShortBreak cycle. -/
theorem next_state_twice_eq_ticking (w s l : Nat) (nr : Int) (cfg : Config)
    (hw0 : 0 < w) (hs0 : 0 < s) (hw : w < 65536) (hs : s < 65536) :
    ((Timer.new w s l nr).next_state cfg).next_state cfg
      = (tick cfg)^[10 * w + 10 * s] (Timer.new w s l nr) := by
  have hT1 : Timer.update_state ⟨0, 0, w, vec3 w s l, 0, 0, false, nr, none⟩ cfg
      = ⟨⟨1, by omega⟩, 0, 0, vec3 w s l, 0, 0, cfg.autob, nr, none⟩ := by
    unfold Timer.update_state
    simp [get_current_time_mk, MAX_ITERATIONS, Timer.is_break, Fin.ext_iff, wrapU8]
  have hT2 : Timer.update_state ⟨⟨1, by omega⟩, 0, s, vec3 w s l, 0, 0,
        cfg.autob, nr, none⟩ cfg
      = ⟨0, 0, 0, vec3 w s l, 1, 0, cfg.autow, nr, none⟩ := by
    unfold Timer.update_state
    simp [get_current_time_mk, MAX_ITERATIONS, Timer.is_break, Fin.ext_iff, wrapU8]
  have hL : ((Timer.new w s l nr).next_state cfg).next_state cfg
      = ⟨0, 0, 0, vec3 w s l, 1, 0, cfg.autow, nr, none⟩ := by
    have h1 : (Timer.new w s l nr).next_state cfg
        = Timer.update_state ⟨0, 0, w, vec3 w s l, 0, 0, false, nr, none⟩ cfg :=
      rfl
    have h2 : (⟨⟨1, by omega⟩, 0, 0, vec3 w s l, 0, 0, cfg.autob, nr, none⟩ :
          Timer).next_state cfg
        = Timer.update_state ⟨⟨1, by omega⟩, 0, s, vec3 w s l, 0, 0, cfg.autob,
            nr, none⟩ cfg :=
      rfl
    rw [h1, hT1, h2, hT2]
  have hR : (tick cfg)^[10 * w + 10 * s] (Timer.new w s l nr)
      = ⟨0, 0, 0, vec3 w s l, 1, 0, cfg.autow, nr, none⟩ := by
    rw [Nat.add_comm, Function.iterate_add_apply]
    show (tick cfg)^[10 * s] ((tick cfg)^[10 * w]
      ⟨0, 0, 0, vec3 w s l, 0, 0, false, nr, none⟩) = _
    rw [tick_through_cycle cfg 0 (vec3 w s l) 0 0 false nr none w rfl hw0 hw]
    rw [hT1]
    rw [tick_through_cycle cfg ⟨1, by omega⟩ (vec3 w s l) 0 0 cfg.autob nr none s
      rfl hs0 hs]
    exact hT2
  rw [hL, hR]

/-- Witness: with one-second Work and ShortBreak cycles, the two paths
agree after 20 ticks. -/
theorem next_state_twice_witness :
    ((Timer.new 1 1 1 0).next_state ⟨1, 1, 1, false, false⟩).next_state
        ⟨1, 1, 1, false, false⟩
      = (tick ⟨1, 1, 1, false, false⟩)^[10 * 1 + 10 * 1] (Timer.new 1 1 1 0) :=
  next_state_twice_eq_ticking 1 1 1 0 ⟨1, 1, 1, false, false⟩
    (by decide) (by decide) (by decide) (by decide)

end Pomodoro
